import Mathlib

/-!
Shallow embedding of the NoteNest note-sharing portal.

The data model and operations below are translated from the TypeScript
source: `src/services/api.ts` (client data-access wrappers), the React
components (`src/components/StudentDashboard.tsx`,
`src/components/FacultyDashboard.tsx`, the admin department manager),
`src/App.tsx` (role-gated routing) and the two Deno edge functions
(delete-user, delete-note).

Modelling conventions: timestamps are naturals (milliseconds), machine
strings are Lean `String`, external calls (auth, database, storage) are
represented by explicit outcome parameters, and a thrown exception is an
explicit boolean or `Except` result.
-/

namespace NoteNest

/-- A row of the `notes` table as selected by the client
(`id, title, file_path, faculty_id, department_id, created_at` in
`src/services/api.ts`).  `created_at` is modelled as a millisecond
timestamp. -/
structure Note where
  id : String
  title : String
  file_path : String
  faculty_id : String
  department_id : String
  created_at : Nat
deriving DecidableEq

/-- A row of the `departments` table (`id, name`). -/
structure Department where
  id : String
  name : String
deriving DecidableEq

/-! ### Ordering used by the notes queries -/

/-- The order produced by `.order('created_at', \x7b ascending: false \x7d)`:
newest first, i.e. the second note's timestamp is at most the first one's. -/
def createdDesc (a b : Note) : Prop := b.created_at ≤ a.created_at

instance : DecidableRel createdDesc := fun a b => Nat.decLe b.created_at a.created_at

instance : IsTotal Note createdDesc := ⟨fun a b => Nat.le_total b.created_at a.created_at⟩

instance : IsTrans Note createdDesc := ⟨fun _ _ _ hab hbc => Nat.le_trans hbc hab⟩

/-- Model of the query builder's ORDER BY `created_at` descending, as a
stable sort of the rows it is applied to. -/
def orderByCreatedAtDesc (l : List Note) : List Note := l.insertionSort createdDesc

/-! ### Notes queries (src/services/api.ts) -/

/-- `getNotesForStudent(departmentId)`: select the note rows whose
`department_id` equals the argument, ordered by `created_at` descending.
The database table is passed explicitly as the list `db`. -/
def getNotesForStudent (db : List Note) (departmentId : String) : List Note :=
  orderByCreatedAtDesc (db.filter (fun n => n.department_id == departmentId))

/-- Original `getNotesByFaculty(facultyId)` (src/services/api.ts): select
the note rows whose `faculty_id` equals the argument, ordered by
`created_at` descending — the filter runs server-side. -/
def getNotesByFacultyOrig (db : List Note) (facultyId : String) : List Note :=
  orderByCreatedAtDesc (db.filter (fun n => n.faculty_id == facultyId))

/-- Modelled from the spec: the re-architected `getAllNotes` calls the
database RPC `get_all_notes_with_details`, whose SQL body is not part of
the repository sources; following the original `getAllNotes` query it
replaces (select all notes ordered by `created_at` descending), it is
modelled as the whole notes table in descending creation order. -/
def getAllNotesRearch (db : List Note) : List Note := orderByCreatedAtDesc db

/-- Re-architected `getNotesByFaculty(facultyId)`: fetch all notes via
`getAllNotes` and keep those with `note.faculty_id === facultyId`
client-side. -/
def getNotesByFacultyRearch (db : List Note) (facultyId : String) : List Note :=
  (getAllNotesRearch db).filter (fun n => n.faculty_id == facultyId)

/-! ### Student dashboard filter (src/components/StudentDashboard.tsx) -/

/-- Milliseconds per day. -/
def dayMs : Nat := 86400000

/-- `d.setHours(0, 0, 0, 0)` on a date holding timestamp `t` (UTC model):
the start of the day containing `t`. -/
def startOfDay (t : Nat) : Nat := t - t % dayMs

/-- `d.setHours(23, 59, 59, 999)` on a date holding timestamp `t`
(UTC model): the last millisecond of the day containing `t`. -/
def endOfDay (t : Nat) : Nat := t - t % dayMs + (dayMs - 1)

/-- JS `String.prototype.toLowerCase`, modelled character-wise. -/
def toLowerStr (s : String) : String := String.mk (s.data.map Char.toLower)

/-- JS `String.prototype.trim`, modelled structurally: drop whitespace
from both ends of the character list. -/
def jsTrim (s : String) : String :=
  String.mk (((s.data.dropWhile Char.isWhitespace).reverse.dropWhile
    Char.isWhitespace).reverse)

/-- Whether the second character list starts with the first one. -/
def leadsWith : List Char → List Char → Bool
  | [], _ => true
  | _ :: _, [] => false
  | a :: as, b :: bs => a == b && leadsWith as bs

/-- Whether the first character list occurs contiguously in the second. -/
def occursIn (needle : List Char) : List Char → Bool
  | [] => leadsWith needle []
  | b :: bs => leadsWith needle (b :: bs) || occursIn needle bs

/-- JS `String.prototype.includes`: the needle occurs as a contiguous
substring of the receiver. -/
def jsIncludes (hay needle : String) : Bool := occursIn needle.data hay.data

/-- The filter inputs of the student dashboard: search box, department
and faculty dropdowns (empty string means no filter), and the optional
start and end date inputs, carried as parsed timestamps (`none` when the
input is the empty string, which is falsy in JS). -/
structure StudentFilters where
  searchTerm : String
  departmentFilter : String
  facultyFilter : String
  startDate : Option Nat
  endDate : Option Nat

/-- The predicate of the `notes.filter` call inside `filteredNotes`
(src/components/StudentDashboard.tsx, lines 106-122): lowercased title
contains the lowercased search term, the department and faculty filters
are empty or match, and the creation date lies between the normalized
start and end dates when those are set. -/
def notePasses (f : StudentFilters) (note : Note) : Bool :=
  jsIncludes (toLowerStr note.title) (toLowerStr f.searchTerm) &&
  (f.departmentFilter == "" || note.department_id == f.departmentFilter) &&
  (f.facultyFilter == "" || note.faculty_id == f.facultyFilter) &&
  (match f.startDate with
   | none => true
   | some s => decide (startOfDay s ≤ note.created_at)) &&
  (match f.endDate with
   | none => true
   | some e => decide (note.created_at ≤ endOfDay e))

/-- `filteredNotes`: the in-memory notes list filtered by `notePasses`. -/
def filteredNotes (f : StudentFilters) (notes : List Note) : List Note :=
  notes.filter (notePasses f)

/-! ### Role-gated routing (src/App.tsx) -/

/-- What the dashboard route renders.  The TS `UserRole` enum is
string-valued (`student`, `faculty`, `admin`) and the role stored on a
profile is ultimately data from the backend, so roles are modelled as
strings and both fallback branches of the source are kept. -/
inductive View where
  | navigateLogin
  | navigateHome
  | studentDashboard
  | facultyDashboard
  | adminDashboard
deriving DecidableEq

/-- The authenticated user as seen by the router: id and role. -/
structure AppUser where
  id : String
  role : String
deriving DecidableEq

/-- The `roles` prop given to `PrivateRoute` on the `/dashboard` route:
all three roles. -/
def dashboardAllowedRoles : List String := ["student", "faculty", "admin"]

/-- The `Dashboard` component: switch on `user.role`, with a redirect to
home as the default branch. -/
def renderDashboard (u : AppUser) : View :=
  if u.role = "student" then View.studentDashboard
  else if u.role = "faculty" then View.facultyDashboard
  else if u.role = "admin" then View.adminDashboard
  else View.navigateHome

/-- `PrivateRoute`: no user redirects to `/login`; a user whose role is
not in `roles` redirects to `/`; otherwise the child renders. -/
def privateRouteThen (roles : List String) (child : AppUser → View)
    (user : Option AppUser) : View :=
  match user with
  | none => View.navigateLogin
  | some u => if roles.contains u.role then child u else View.navigateHome

/-- The `/dashboard` route: `PrivateRoute` around `Dashboard`. -/
def dashboardRoute (user : Option AppUser) : View :=
  privateRouteThen dashboardAllowedRoles renderDashboard user

/-! ### delete-note edge function (src/unnamed/part_003) -/

/-- The note row selected by the delete-note function
(`file_path, faculty_id`). -/
structure NoteRow where
  file_path : String
  faculty_id : String
deriving DecidableEq

/-- Everything one delete-note request observes from the outside world:
the result of `auth.getUser` (the caller's id, when authenticated), the
caller's profile role (when the profile row is found), the parsed
`noteId` body field (`none` when missing or not a string), the fetched
note row (`none` when the select fails), and whether the storage removal
and the database delete fail. -/
structure DeleteNoteRequest where
  authUserId : Option String
  profileRole : Option String
  noteId : Option String
  noteRow : Option NoteRow
  storageRemoveFails : Bool
  dbDeleteFails : Bool
deriving DecidableEq

/-- Outcome of the delete-note function: HTTP status, whether the stored
file was removed, and whether the note record was deleted. -/
structure DeleteNoteResult where
  status : Nat
  fileRemoved : Bool
  noteDeleted : Bool
deriving DecidableEq

/-- The delete-note request handler, following the source line by line:
401 when unauthenticated; 403 when the profile is missing; a thrown
error (caught as 500) for a bad `noteId` or a failed note fetch; 403
when the caller is neither admin nor the uploading faculty, before any
removal; otherwise remove the stored file when `file_path` is truthy
(ignoring storage errors), then delete the row, throwing (500) when the
database delete fails. -/
def deleteNoteHandler (r : DeleteNoteRequest) : DeleteNoteResult :=
  match r.authUserId with
  | none => ⟨401, false, false⟩
  | some uid =>
    match r.profileRole with
    | none => ⟨403, false, false⟩
    | some role =>
      match r.noteId with
      | none => ⟨500, false, false⟩
      | some _ =>
        match r.noteRow with
        | none => ⟨500, false, false⟩
        | some note =>
          if role ≠ "admin" ∧ note.faculty_id ≠ uid then ⟨403, false, false⟩
          else
            let removed := note.file_path != "" && !r.storageRemoveFails
            if r.dbDeleteFails then ⟨500, removed, false⟩
            else ⟨200, removed, true⟩

/-! ### delete-user edge function (src/supabase/functions/delete-user/index.ts) -/

/-- Everything one delete-user request observes: the caller's id when
authenticated, the caller's profile role when found, the parsed `userId`
body field, and whether the auth-admin delete fails. -/
structure DeleteUserRequest where
  authUserId : Option String
  profileRole : Option String
  targetUserId : Option String
  authDeleteFails : Bool
deriving DecidableEq

/-- Outcome of the delete-user function. -/
structure DeleteUserResult where
  status : Nat
  userDeleted : Bool
deriving DecidableEq

/-- The delete-user request handler: a thrown error is caught and
answered with status 400; a caller whose profile is missing or whose
role is not `admin` gets 403; a missing `userId`, a self-delete, or a
failing auth delete throw (400); otherwise the account is deleted (200). -/
def deleteUserHandler (r : DeleteUserRequest) : DeleteUserResult :=
  match r.authUserId with
  | none => ⟨400, false⟩
  | some uid =>
    if r.profileRole ≠ some "admin" then ⟨403, false⟩
    else
      match r.targetUserId with
      | none => ⟨400, false⟩
      | some target =>
        if uid = target then ⟨400, false⟩
        else if r.authDeleteFails then ⟨400, false⟩
        else ⟨200, true⟩

/-! ### deleteNote client wrapper (src/services/api.ts, lines 221-229) -/

/-- The external calls `deleteNote` issues, in order. -/
inductive ApiCall where
  | storageRemove (path : String)
  | dbDelete (noteId : String)
deriving DecidableEq

/-- One run of the `deleteNote` client wrapper: the calls it made and
whether it threw. -/
structure DeleteNoteApiRun where
  calls : List ApiCall
  threw : Bool
deriving DecidableEq

/-- `deleteNote(noteId, filePath)`: remove the file from storage first,
logging (and otherwise ignoring) a storage error, then delete the
database row, throwing exactly when that delete reports an error. -/
def deleteNoteApi (noteId filePath : String) (storageFails dbFails : Bool) :
    DeleteNoteApiRun :=
  let afterStorage : List ApiCall := [ApiCall.storageRemove filePath]
  let afterDb : List ApiCall := afterStorage ++ [ApiCall.dbDelete noteId]
  if dbFails then { calls := afterDb, threw := true }
  else { calls := afterDb, threw := false }

/-! ### Faculty dashboard title editing (src/components/FacultyDashboard.tsx) -/

/-- The component state `handleSaveEdit` touches: the notes list and the
editing id and title. -/
structure FacultyState where
  myNotes : List Note
  editingNoteId : Option String
  editingTitle : String
deriving DecidableEq

/-- `handleCancelEdit`: clear the editing id and title. -/
def cancelEdit (s : FacultyState) : FacultyState :=
  { s with editingNoteId := none, editingTitle := "" }

/-- The list handed to the first `setMyNotes` call of `handleSaveEdit`
(the optimistic update), when the handler reaches it: every note whose
id matches the editing id is replaced by the found note carrying the
trimmed new title. -/
def saveEditOptimistic (s : FacultyState) : Option (List Note) :=
  match s.editingNoteId with
  | none => none
  | some eid =>
    if jsTrim s.editingTitle = "" then none
    else
      match s.myNotes.find? (fun n => n.id == eid) with
      | none => none
      | some noteToUpdate =>
        let updatedNote := { noteToUpdate with title := jsTrim s.editingTitle }
        some (s.myNotes.map (fun n => if n.id == eid then updatedNote else n))

/-- `handleSaveEdit`: bail out when no note is being edited, the trimmed
title is empty, or the edited note is not in the list; otherwise record
the original list, optimistically set the mapped list and clear the
editing state, then call `updateNote`; when that call fails, restore the
recorded original list. -/
def handleSaveEdit (updateFails : Bool) (s : FacultyState) : FacultyState :=
  match s.editingNoteId with
  | none => s
  | some eid =>
    if jsTrim s.editingTitle = "" then s
    else
      let originalNotes := s.myNotes
      match s.myNotes.find? (fun n => n.id == eid) with
      | none => s
      | some noteToUpdate =>
        let updatedNote := { noteToUpdate with title := jsTrim s.editingTitle }
        let optimistic :=
          cancelEdit { s with
            myNotes := s.myNotes.map (fun n => if n.id == eid then updatedNote else n) }
        if updateFails then { optimistic with myNotes := originalNotes }
        else optimistic

/-! ### Departments (src/services/api.ts and the admin department manager) -/

/-- Modelled from the spec and the repository's own error handling: the
`departments` table schema is not under the sources, but the admin
department manager maps the backend error text
`duplicate key value violates unique constraint` to the message
`Department "..." already exists.`, documenting a unique constraint on
the department name; the insert is modelled accordingly. -/
def duplicateKeyMsg : String :=
  "duplicate key value violates unique constraint \"departments_name_key\""

/-- Insert into the `departments` table: fails with the duplicate-key
error when some existing row already holds the given name, otherwise
appends a fresh row. -/
def insertDepartment (rows : List Department) (newId name : String) :
    Except String (List Department) :=
  if rows.any (fun d => d.name == name) then Except.error duplicateKeyMsg
  else Except.ok (rows ++ [{ id := newId, name := name }])

/-- `addDepartment(name)` (src/services/api.ts): insert the row and
return it, throwing when the insert reports an error. -/
def addDepartment (rows : List Department) (newId name : String) :
    Except String (List Department × Department) :=
  match insertDepartment rows newId name with
  | Except.error e => Except.error e
  | Except.ok rows2 => Except.ok (rows2, { id := newId, name := name })

/-- Outcome of `handleAddDepartment`: the resulting table, the error
message shown (if any), and whether the input box was cleared. -/
structure AddDeptOutcome where
  rows : List Department
  errorMsg : Option String
  inputCleared : Bool
deriving DecidableEq

/-- `handleAddDepartment` (the admin department manager): bail out on a
blank name; call `addDepartment` with the trimmed name; on success clear
the input; on an error whose message contains the duplicate-key text,
show `Department "..." already exists.`, otherwise a generic failure
message. -/
def handleAddDepartment (rows : List Department) (newId newDepartmentName : String) :
    AddDeptOutcome :=
  if jsTrim newDepartmentName = "" then
    { rows := rows, errorMsg := none, inputCleared := false }
  else
    match addDepartment rows newId (jsTrim newDepartmentName) with
    | Except.ok (rows2, _) => { rows := rows2, errorMsg := none, inputCleared := true }
    | Except.error e =>
      if jsIncludes e "duplicate key value violates unique constraint" then
        { rows := rows
          errorMsg := some ("Department \"" ++ jsTrim newDepartmentName ++ "\" already exists.")
          inputCleared := false }
      else
        { rows := rows
          errorMsg := some "Failed to add department. Please try again."
          inputCleared := false }

/-! ### uploadNote (src/services/api.ts, lines 198-219) -/

/-- A freshly inserted row of the `notes` table (the columns the insert
supplies). -/
structure NoteInsertRow where
  title : String
  file_path : String
  faculty_id : String
  department_id : String
deriving DecidableEq

/-- The backend state `uploadNote` touches: the stored object paths and
the note rows. -/
structure BackendState where
  storage : List String
  notes : List NoteInsertRow
deriving DecidableEq

/-- JS `file.name.split('.').pop()`: the part after the last dot (the
whole name when there is no dot). -/
def jsExtOf (fileName : String) : String := (fileName.splitOn ".").getLastD ""

/-- The storage path `uploadNote` builds:
`facultyId/Date.now().fileExt`. -/
def uploadFileName (facultyId fileNameOrig : String) (now : Nat) : String :=
  facultyId ++ "/" ++ toString now ++ "." ++ jsExtOf fileNameOrig

/-- `uploadNote(title, file, facultyId, departmentId)`: upload the file
under the built path, throwing when the upload fails; then insert the
note row; when the insert fails, issue the removal of the just-uploaded
object — the source awaits the remove call but discards its result, so
the removal's own outcome is an explicit parameter `removeFails` and a
failed removal leaves the object in storage — then rethrow.  Returns
the final backend state and whether the call threw. -/
def uploadNote (title fileNameOrig facultyId departmentId : String) (now : Nat)
    (uploadFails insertFails removeFails : Bool) (st : BackendState) :
    BackendState × Bool :=
  let fileName := uploadFileName facultyId fileNameOrig now
  if uploadFails then (st, true)
  else
    let st1 := { st with storage := st.storage ++ [fileName] }
    if insertFails then
      let cleaned :=
        if removeFails then st1
        else { st1 with storage := st1.storage.filter (fun p => p != fileName) }
      (cleaned, true)
    else
      ({ st1 with
          notes := st1.notes ++
            [{ title := title, file_path := fileName
               faculty_id := facultyId, department_id := departmentId }] }, false)

/-! ## Theorems -/

/-- Unfolding of the student dashboard filter predicate into the
conjunction of its five conditions, stated as propositions. -/
theorem notePasses_eq_true_iff (f : StudentFilters) (n : Note) :
    notePasses f n = true ↔
      jsIncludes (toLowerStr n.title) (toLowerStr f.searchTerm) = true ∧
      (f.departmentFilter = "" ∨ n.department_id = f.departmentFilter) ∧
      (f.facultyFilter = "" ∨ n.faculty_id = f.facultyFilter) ∧
      (∀ s, f.startDate = some s → startOfDay s ≤ n.created_at) ∧
      (∀ e, f.endDate = some e → n.created_at ≤ endOfDay e) := by
  unfold notePasses
  cases hs : f.startDate <;> cases he : f.endDate <;>
    simp [Bool.and_eq_true, Bool.or_eq_true, beq_iff_eq, hs, he] <;>
    tauto

/-- C1: a note of the in-memory list survives `filteredNotes` exactly
when its lowercased title contains the lowercased search term, the
department filter is empty or matches its `department_id`, the faculty
filter is empty or matches its `faculty_id`, and its creation timestamp
is at least the start date normalized to the start of its day (when set)
and at most the end date normalized to the last millisecond of its day
(when set); and the relative order of the notes is preserved, the
filtered list being a sublist of the original. -/
theorem filteredNotes_spec (f : StudentFilters) (notes : List Note) :
    (∀ n : Note, n ∈ filteredNotes f notes ↔
      n ∈ notes ∧
      jsIncludes (toLowerStr n.title) (toLowerStr f.searchTerm) = true ∧
      (f.departmentFilter = "" ∨ n.department_id = f.departmentFilter) ∧
      (f.facultyFilter = "" ∨ n.faculty_id = f.facultyFilter) ∧
      (∀ s, f.startDate = some s → startOfDay s ≤ n.created_at) ∧
      (∀ e, f.endDate = some e → n.created_at ≤ endOfDay e)) ∧
    (filteredNotes f notes).Sublist notes := by
  refine ⟨fun n => ?_, List.filter_sublist notes⟩
  rw [filteredNotes, List.mem_filter, notePasses_eq_true_iff]

/-- Witness for C1 at a concrete filter state and one-note list. -/
theorem filteredNotes_spec_witness :
    (∀ n : Note, n ∈ filteredNotes ⟨"alg", "dep1", "", some 86400000, none⟩
        [⟨"n1", "Algebra Notes", "p", "fac1", "dep1", 86400005⟩] ↔
      n ∈ [⟨"n1", "Algebra Notes", "p", "fac1", "dep1", 86400005⟩] ∧
      jsIncludes (toLowerStr n.title) (toLowerStr "alg") = true ∧
      ("dep1" = "" ∨ n.department_id = "dep1") ∧
      ("" = "" ∨ n.faculty_id = "") ∧
      (∀ s, (some 86400000 : Option Nat) = some s → startOfDay s ≤ n.created_at) ∧
      (∀ e, (none : Option Nat) = some e → n.created_at ≤ endOfDay e)) ∧
    (filteredNotes ⟨"alg", "dep1", "", some 86400000, none⟩
        [⟨"n1", "Algebra Notes", "p", "fac1", "dep1", 86400005⟩]).Sublist
      [⟨"n1", "Algebra Notes", "p", "fac1", "dep1", 86400005⟩] :=
  filteredNotes_spec ⟨"alg", "dep1", "", some 86400000, none⟩
    [⟨"n1", "Algebra Notes", "p", "fac1", "dep1", 86400005⟩]

/-- Filtering commutes with an ordered insertion into a sorted list: the
inserted element either survives the filter and is inserted into the
filtered list, or drops out. -/
theorem filter_orderedInsert {α : Type} (r : α → α → Prop) [DecidableRel r]
    [IsTrans α r] (p : α → Bool) (x : α) :
    ∀ l : List α, l.Sorted r →
      (l.orderedInsert r x).filter p =
        if p x then (l.filter p).orderedInsert r x else l.filter p := by
  intro l
  induction l with
  | nil =>
    intro _
    cases hpx : p x <;> simp [List.orderedInsert, List.filter, hpx]
  | cons b l ih =>
    intro hs
    by_cases hr : r x b
    · rw [List.orderedInsert, if_pos hr]
      cases hpx : p x
      · simp [List.filter, hpx]
      · rw [List.filter_cons_of_pos (by simp [hpx]), if_pos (by simp [hpx])]
        cases hpb : p b
        · have hall : ∀ c ∈ l.filter p, r x c := by
            intro c hc
            exact Trans.trans hr
              (List.rel_of_sorted_cons hs c (List.mem_of_mem_filter hc))
          rw [List.filter_cons_of_neg (by simp [hpb])]
          cases hfl : l.filter p with
          | nil => simp [List.orderedInsert]
          | cons c m =>
            have hxc : r x c := hall c (by rw [hfl]; exact List.mem_cons_self c m)
            rw [List.orderedInsert, if_pos hxc]
        · rw [List.filter_cons_of_pos (by simp [hpb]),
            List.orderedInsert, if_pos hr]
    · rw [List.orderedInsert, if_neg hr]
      have ihs := ih hs.of_cons
      cases hpx : p x
      · rw [if_neg (by simp [hpx])]
        rw [if_neg (by simp [hpx])] at ihs
        cases hpb : p b
        · rw [List.filter_cons_of_neg (by simp [hpb]),
            List.filter_cons_of_neg (by simp [hpb]), ihs]
        · rw [List.filter_cons_of_pos (by simp [hpb]),
            List.filter_cons_of_pos (by simp [hpb]), ihs]
      · rw [if_pos (by simp [hpx])]
        rw [if_pos (by simp [hpx])] at ihs
        cases hpb : p b
        · rw [List.filter_cons_of_neg (by simp [hpb]),
            List.filter_cons_of_neg (by simp [hpb]), ihs]
        · rw [List.filter_cons_of_pos (by simp [hpb]),
            List.filter_cons_of_pos (by simp [hpb]), ihs,
            List.orderedInsert, if_neg hr]

/-- Filtering commutes with the stable insertion sort. -/
theorem filter_insertionSort {α : Type} (r : α → α → Prop) [DecidableRel r]
    [IsTotal α r] [IsTrans α r] (p : α → Bool) (l : List α) :
    (l.insertionSort r).filter p = (l.filter p).insertionSort r := by
  induction l with
  | nil => rfl
  | cons b l ih =>
    rw [List.insertionSort,
      filter_orderedInsert r p b _ (List.sorted_insertionSort r l), ih]
    cases hpb : p b
    · rw [if_neg (by simp [hpb]), List.filter_cons_of_neg (by simp [hpb])]
    · rw [if_pos (by simp [hpb]), List.filter_cons_of_pos (by simp [hpb]),
        List.insertionSort]

/-- C5: `getNotesForStudent(departmentId)` returns exactly the notes
whose `department_id` equals the given department (a permutation of the
filtered table, hence the same rows with multiplicity, and membership is
equivalent to being a table row of that department), sorted by
`created_at` descending (newest first). -/
theorem getNotesForStudent_spec (db : List Note) (departmentId : String) :
    (getNotesForStudent db departmentId).Perm
        (db.filter (fun n => n.department_id == departmentId)) ∧
    (∀ n : Note, n ∈ getNotesForStudent db departmentId ↔
        n ∈ db ∧ n.department_id = departmentId) ∧
    (getNotesForStudent db departmentId).Sorted
        (fun a b => b.created_at ≤ a.created_at) := by
  unfold getNotesForStudent orderByCreatedAtDesc
  refine ⟨List.perm_insertionSort createdDesc _, fun n => ?_, ?_⟩
  · rw [List.mem_insertionSort, List.mem_filter]
    simp [beq_iff_eq]
  · exact List.sorted_insertionSort createdDesc _

/-- C10: for every faculty id and table contents, the original
`getNotesByFaculty` (server-side filter on `faculty_id`, then order by
`created_at` descending) and the re-architected one (fetch all notes in
descending creation order, then filter client-side on
`note.faculty_id === facultyId`) return the same sequence of notes. -/
theorem getNotesByFaculty_equiv (db : List Note) (facultyId : String) :
    getNotesByFacultyOrig db facultyId = getNotesByFacultyRearch db facultyId := by
  unfold getNotesByFacultyOrig getNotesByFacultyRearch getAllNotesRearch
    orderByCreatedAtDesc
  exact (filter_insertionSort createdDesc _ db).symm

/-- C2: the delete-note handler deletes the note record only when the
caller's profile role is `admin` or the note's `faculty_id` equals the
caller's user id; an authenticated caller with a found profile, a
well-formed request and an existing note who satisfies neither condition
is answered with status 403, and neither the note record nor the stored
file is removed. -/
theorem deleteNoteHandler_authz :
    (∀ r : DeleteNoteRequest, (deleteNoteHandler r).noteDeleted = true →
      ∃ uid role note, r.authUserId = some uid ∧ r.profileRole = some role ∧
        r.noteRow = some note ∧ (role = "admin" ∨ note.faculty_id = uid)) ∧
    (∀ (r : DeleteNoteRequest) (uid role nid : String) (note : NoteRow),
      r.authUserId = some uid → r.profileRole = some role →
      r.noteId = some nid → r.noteRow = some note →
      role ≠ "admin" → note.faculty_id ≠ uid →
      (deleteNoteHandler r).status = 403 ∧
      (deleteNoteHandler r).noteDeleted = false ∧
      (deleteNoteHandler r).fileRemoved = false) := by
  constructor
  · rintro ⟨a, p, ni, nr, sf, df⟩ hdel
    cases a with
    | none => simp [deleteNoteHandler] at hdel
    | some uid =>
      cases p with
      | none => simp [deleteNoteHandler] at hdel
      | some role =>
        cases ni with
        | none => simp [deleteNoteHandler] at hdel
        | some nid =>
          cases nr with
          | none => simp [deleteNoteHandler] at hdel
          | some note =>
            by_cases hauth : role = "admin" ∨ note.faculty_id = uid
            · exact ⟨uid, role, note, rfl, rfl, rfl, hauth⟩
            · rw [not_or] at hauth
              simp [deleteNoteHandler, hauth.1, hauth.2] at hdel
  · rintro ⟨a, p, ni, nr, sf, df⟩ uid role nid note hA hP hN hR hrole hfac
    simp only at hA hP hN hR
    subst hA; subst hP; subst hN; subst hR
    simp [deleteNoteHandler, hrole, hfac]

/-- Witness for C2: a student who is not the uploader of the note asks
to delete it and gets 403 with nothing removed. -/
theorem deleteNoteHandler_authz_witness :
    (deleteNoteHandler ⟨some "u1", some "student", some "n1",
        some ⟨"u2/1.pdf", "u2"⟩, false, false⟩).status = 403 ∧
    (deleteNoteHandler ⟨some "u1", some "student", some "n1",
        some ⟨"u2/1.pdf", "u2"⟩, false, false⟩).noteDeleted = false ∧
    (deleteNoteHandler ⟨some "u1", some "student", some "n1",
        some ⟨"u2/1.pdf", "u2"⟩, false, false⟩).fileRemoved = false :=
  deleteNoteHandler_authz.2 _ "u1" "student" "n1" ⟨"u2/1.pdf", "u2"⟩
    rfl rfl rfl rfl (by decide) (by decide)

/-- C3: the view rendered by the dashboard route is a function of the
user's role alone: `studentDashboard` for role `student`,
`facultyDashboard` for role `faculty`, `adminDashboard` for role
`admin`; with no session the route navigates to login, and a role
outside the route's allowed set navigates home. -/
theorem dashboardRoute_spec :
    dashboardRoute none = View.navigateLogin ∧
    (∀ u v : AppUser, u.role = v.role →
      dashboardRoute (some u) = dashboardRoute (some v)) ∧
    (∀ u : AppUser, u.role = "student" →
      dashboardRoute (some u) = View.studentDashboard) ∧
    (∀ u : AppUser, u.role = "faculty" →
      dashboardRoute (some u) = View.facultyDashboard) ∧
    (∀ u : AppUser, u.role = "admin" →
      dashboardRoute (some u) = View.adminDashboard) ∧
    (∀ u : AppUser, u.role ∉ dashboardAllowedRoles →
      dashboardRoute (some u) = View.navigateHome) := by
  refine ⟨rfl, ?_, ?_, ?_, ?_, ?_⟩
  · intro u v h
    simp [dashboardRoute, privateRouteThen, renderDashboard, h]
  · intro u h
    simp [dashboardRoute, privateRouteThen, renderDashboard,
      dashboardAllowedRoles, h]
  · intro u h
    simp [dashboardRoute, privateRouteThen, renderDashboard,
      dashboardAllowedRoles, h]
  · intro u h
    simp [dashboardRoute, privateRouteThen, renderDashboard,
      dashboardAllowedRoles, h]
  · intro u h
    simp only [dashboardAllowedRoles, List.mem_cons, List.not_mem_nil,
      or_false, not_or] at h
    simp [dashboardRoute, privateRouteThen, renderDashboard,
      dashboardAllowedRoles, h.1, h.2.1, h.2.2]

/-- Witness for C3: one concrete user of each role, plus a user with an
unknown role string. -/
theorem dashboardRoute_spec_witness :
    dashboardRoute (some ⟨"id1", "student"⟩) = View.studentDashboard ∧
    dashboardRoute (some ⟨"id2", "faculty"⟩) = View.facultyDashboard ∧
    dashboardRoute (some ⟨"id3", "admin"⟩) = View.adminDashboard ∧
    dashboardRoute (some ⟨"id4", "ghost"⟩) = View.navigateHome :=
  ⟨dashboardRoute_spec.2.2.1 ⟨"id1", "student"⟩ rfl,
   dashboardRoute_spec.2.2.2.1 ⟨"id2", "faculty"⟩ rfl,
   dashboardRoute_spec.2.2.2.2.1 ⟨"id3", "admin"⟩ rfl,
   dashboardRoute_spec.2.2.2.2.2 ⟨"id4", "ghost"⟩ (by decide)⟩

/-- C4: the delete-user handler deletes the target account only when the
caller's profile role is `admin` and the supplied user id differs from
the caller's own id; an authenticated caller without the admin role gets
403, and an admin passing their own id gets an error response (400),
with no account deleted in either case. -/
theorem deleteUserHandler_authz :
    (∀ r : DeleteUserRequest, (deleteUserHandler r).userDeleted = true →
      ∃ uid target, r.authUserId = some uid ∧ r.profileRole = some "admin" ∧
        r.targetUserId = some target ∧ target ≠ uid) ∧
    (∀ (r : DeleteUserRequest) (uid : String), r.authUserId = some uid →
      r.profileRole ≠ some "admin" →
      (deleteUserHandler r).status = 403 ∧
      (deleteUserHandler r).userDeleted = false) ∧
    (∀ (r : DeleteUserRequest) (uid : String), r.authUserId = some uid →
      r.profileRole = some "admin" → r.targetUserId = some uid →
      (deleteUserHandler r).status = 400 ∧
      (deleteUserHandler r).userDeleted = false) := by
  refine ⟨?_, ?_, ?_⟩
  · rintro ⟨a, p, t, df⟩ hdel
    cases a with
    | none => simp [deleteUserHandler] at hdel
    | some uid =>
      by_cases hrole : p = some "admin"
      · subst hrole
        cases t with
        | none => simp [deleteUserHandler] at hdel
        | some target =>
          by_cases hself : uid = target
          · simp [deleteUserHandler, hself] at hdel
          · exact ⟨uid, target, rfl, rfl, rfl, fun h => hself h.symm⟩
      · simp [deleteUserHandler, hrole] at hdel
  · rintro ⟨a, p, t, df⟩ uid hA hrole
    simp only at hA
    subst hA
    simp only at hrole
    simp [deleteUserHandler, hrole]
  · rintro ⟨a, p, t, df⟩ uid hA hrole htarget
    simp only at hA hrole htarget
    subst hA; subst hrole; subst htarget
    simp [deleteUserHandler]

/-- Witness for C4: a faculty caller is refused with 403, and an admin
naming their own id gets the 400 error response; no account is deleted
in either case. -/
theorem deleteUserHandler_authz_witness :
    ((deleteUserHandler ⟨some "u1", some "faculty", some "u9", false⟩).status = 403 ∧
     (deleteUserHandler ⟨some "u1", some "faculty", some "u9", false⟩).userDeleted = false) ∧
    ((deleteUserHandler ⟨some "a1", some "admin", some "a1", false⟩).status = 400 ∧
     (deleteUserHandler ⟨some "a1", some "admin", some "a1", false⟩).userDeleted = false) :=
  ⟨deleteUserHandler_authz.2.1 _ "u1" rfl (by decide),
   deleteUserHandler_authz.2.2 _ "a1" rfl rfl rfl⟩

/-- C6: the `deleteNote` client wrapper throws exactly when the database
delete of the note record fails; the database delete is attempted on
every run, and the storage outcome alone never changes the run at all
(in particular a storage failure alone never causes a throw). -/
theorem deleteNoteApi_spec (noteId filePath : String)
    (storageFails dbFails : Bool) :
    ((deleteNoteApi noteId filePath storageFails dbFails).threw = true ↔
      dbFails = true) ∧
    ApiCall.dbDelete noteId ∈
      (deleteNoteApi noteId filePath storageFails dbFails).calls ∧
    deleteNoteApi noteId filePath storageFails dbFails =
      deleteNoteApi noteId filePath false dbFails := by
  cases dbFails <;> simp [deleteNoteApi]

/-- C7: when a note is being edited with a nonblank trimmed title and
the note is found in the list, `handleSaveEdit` optimistically replaces
that note's title with the trimmed new title (given list ids are
distinct, the optimistic list changes nothing but the edited note's
title); if the `updateNote` call fails the list is restored to exactly
its pre-edit contents, and if it succeeds the final list differs from
the pre-edit list only in the edited note's title. -/
theorem handleSaveEdit_spec (s : FacultyState) (eid : String) (m : Note)
    (hids : (s.myNotes.map Note.id).Nodup)
    (heid : s.editingNoteId = some eid)
    (htitle : jsTrim s.editingTitle ≠ "")
    (hfind : s.myNotes.find? (fun n => n.id == eid) = some m) :
    saveEditOptimistic s =
      some (s.myNotes.map (fun n =>
        if n.id = eid then { n with title := jsTrim s.editingTitle } else n)) ∧
    (handleSaveEdit true s).myNotes = s.myNotes ∧
    (handleSaveEdit false s).myNotes =
      s.myNotes.map (fun n =>
        if n.id = eid then { n with title := jsTrim s.editingTitle } else n) := by
  have hmn : ∀ n ∈ s.myNotes, n.id = eid → m = n := by
    intro n hn h
    have hmem := List.mem_of_find?_eq_some hfind
    have hmid : m.id = eid := by simpa using List.find?_some hfind
    exact List.inj_on_of_nodup_map hids hmem hn (by rw [hmid, h])
  refine ⟨?_, ?_, ?_⟩
  · unfold saveEditOptimistic
    rw [heid]
    simp only [if_neg htitle, hfind]
    refine congrArg some (List.map_congr_left ?_)
    intro n hn
    by_cases h : n.id = eid
    · rw [hmn n hn h]
      simp [h]
    · simp [h]
  · unfold handleSaveEdit
    rw [heid]
    simp [if_neg htitle, hfind]
  · unfold handleSaveEdit
    rw [heid]
    simp only [if_neg htitle, hfind, cancelEdit]
    simp only [Bool.false_eq_true, if_false]
    apply List.map_congr_left
    intro n hn
    by_cases h : n.id = eid
    · rw [hmn n hn h]
      simp [h]
    · simp [h]

/-- Witness for C7: a two-note list with distinct ids, editing the first
note's title to a padded new title. -/
theorem handleSaveEdit_spec_witness :
    saveEditOptimistic
        ⟨[⟨"1", "Old", "p1", "f1", "d1", 5⟩, ⟨"2", "B", "p2", "f1", "d1", 3⟩],
          some "1", " New "⟩ =
      some (([⟨"1", "Old", "p1", "f1", "d1", 5⟩,
          ⟨"2", "B", "p2", "f1", "d1", 3⟩] : List Note).map (fun n =>
        if n.id = "1" then { n with title := jsTrim " New " } else n)) ∧
    (handleSaveEdit true
        ⟨[⟨"1", "Old", "p1", "f1", "d1", 5⟩, ⟨"2", "B", "p2", "f1", "d1", 3⟩],
          some "1", " New "⟩).myNotes =
      [⟨"1", "Old", "p1", "f1", "d1", 5⟩, ⟨"2", "B", "p2", "f1", "d1", 3⟩] ∧
    (handleSaveEdit false
        ⟨[⟨"1", "Old", "p1", "f1", "d1", 5⟩, ⟨"2", "B", "p2", "f1", "d1", 3⟩],
          some "1", " New "⟩).myNotes =
      ([⟨"1", "Old", "p1", "f1", "d1", 5⟩,
          ⟨"2", "B", "p2", "f1", "d1", 3⟩] : List Note).map (fun n =>
        if n.id = "1" then { n with title := jsTrim " New " } else n) :=
  handleSaveEdit_spec
    ⟨[⟨"1", "Old", "p1", "f1", "d1", 5⟩, ⟨"2", "B", "p2", "f1", "d1", 3⟩],
      some "1", " New "⟩
    "1" ⟨"1", "Old", "p1", "f1", "d1", 5⟩
    (by decide) rfl (by decide) (by decide)

/-- C8 counterexample: with one existing department named CS,
`addDepartment` with the same name does not succeed and does not create
a second department: the insert reports the duplicate-key error, and
`handleAddDepartment` leaves the table unchanged and shows the
already-exists message. -/
theorem addDepartment_duplicate_counterexample :
    addDepartment [{ id := "d1", name := "CS" }] "d2" "CS" =
      Except.error duplicateKeyMsg ∧
    (handleAddDepartment [{ id := "d1", name := "CS" }] "d2" "CS").rows =
      [{ id := "d1", name := "CS" }] ∧
    (handleAddDepartment [{ id := "d1", name := "CS" }] "d2" "CS").errorMsg =
      some "Department \"CS\" already exists." := by
  refine ⟨rfl, by decide, by decide⟩

/-- C8 amended: the data model keeps department names unique beyond the
uniqueness of identifiers: `addDepartment` with a name already held by
an existing department fails with the duplicate-key error instead of
creating a second department, and `handleAddDepartment` then leaves the
table unchanged, keeps the input, and reports that the department
already exists. -/
theorem addDepartment_duplicate_fails (rows : List Department)
    (newId name : String)
    (hdup : rows.any (fun d => d.name == jsTrim name) = true)
    (hne : jsTrim name ≠ "") :
    addDepartment rows newId (jsTrim name) = Except.error duplicateKeyMsg ∧
    (handleAddDepartment rows newId name).rows = rows ∧
    (handleAddDepartment rows newId name).errorMsg =
      some ("Department \"" ++ jsTrim name ++ "\" already exists.") ∧
    (handleAddDepartment rows newId name).inputCleared = false := by
  have hins : insertDepartment rows newId (jsTrim name) =
      Except.error duplicateKeyMsg := by
    unfold insertDepartment
    rw [if_pos hdup]
  have hadd : addDepartment rows newId (jsTrim name) =
      Except.error duplicateKeyMsg := by
    unfold addDepartment
    rw [hins]
  have hinc : jsIncludes duplicateKeyMsg
      "duplicate key value violates unique constraint" = true := by decide
  refine ⟨hadd, ?_, ?_, ?_⟩ <;>
    simp only [handleAddDepartment, if_neg hne, hadd, hinc, if_true]

/-- Witness for C8 (amended): adding a padded duplicate of the existing
Math department fails and reports the already-exists message. -/
theorem addDepartment_duplicate_fails_witness :
    addDepartment [{ id := "d1", name := "Math" }] "d2" (jsTrim "  Math ") =
      Except.error duplicateKeyMsg ∧
    (handleAddDepartment [{ id := "d1", name := "Math" }] "d2" "  Math ").rows =
      [{ id := "d1", name := "Math" }] ∧
    (handleAddDepartment [{ id := "d1", name := "Math" }] "d2" "  Math ").errorMsg =
      some ("Department \"" ++ jsTrim "  Math " ++ "\" already exists.") ∧
    (handleAddDepartment [{ id := "d1", name := "Math" }] "d2" "  Math ").inputCleared =
      false :=
  addDepartment_duplicate_fails [{ id := "d1", name := "Math" }] "d2" "  Math "
    (by decide) (by decide)

/-- C9 counterexample: when the database insert fails after a successful
upload and the cleanup removal itself fails (the source discards the
remove result), the error is rethrown but the uploaded object remains in
storage with no note record referencing it — a storage file without a
corresponding note record. -/
theorem uploadNote_orphan_counterexample :
    (uploadNote "T" "a.pdf" "f1" "d1" 7 false true true ⟨[], []⟩).2 = true ∧
    ¬ (∀ p ∈ (uploadNote "T" "a.pdf" "f1" "d1" 7 false true true ⟨[], []⟩).1.storage,
        p ∈ ([] : List String) ∨
        ∃ rec ∈ (uploadNote "T" "a.pdf" "f1" "d1" 7 false true true ⟨[], []⟩).1.notes,
          rec.file_path = p) := by
  constructor
  · rfl
  · intro h
    rcases h (uploadFileName "f1" "a.pdf" 7) (List.mem_singleton.mpr rfl) with
      hmem | ⟨rec, hrec, _⟩
    · exact List.not_mem_nil _ hmem
    · exact List.not_mem_nil rec hrec

/-- C9 amended: when the database insert of `uploadNote` fails after the
file upload succeeded, removal of the just-uploaded storage object is
attempted before the error is rethrown, with its result discarded: when
the removal succeeds, storage and notes are exactly as before the call;
when it fails, the uploaded object stays in storage and the notes are
unchanged; on success exactly one note record referencing the uploaded
file path is appended; and on every run whose cleanup removal succeeds,
each stored object is an old one or has a note record referencing its
path. -/
theorem uploadNote_spec (title fileNameOrig facultyId departmentId : String)
    (now : Nat) (st : BackendState)
    (hfresh : uploadFileName facultyId fileNameOrig now ∉ st.storage) :
    uploadNote title fileNameOrig facultyId departmentId now false true false st =
      (st, true) ∧
    uploadNote title fileNameOrig facultyId departmentId now false true true st =
      ({ st with
          storage := st.storage ++ [uploadFileName facultyId fileNameOrig now] },
        true) ∧
    (∀ removeFails : Bool,
      uploadNote title fileNameOrig facultyId departmentId now
          false false removeFails st =
        ({ storage := st.storage ++ [uploadFileName facultyId fileNameOrig now]
           notes := st.notes ++
             [{ title := title
                file_path := uploadFileName facultyId fileNameOrig now
                faculty_id := facultyId, department_id := departmentId }] },
          false)) ∧
    (∀ uploadFails insertFails : Bool,
      ∀ p ∈ (uploadNote title fileNameOrig facultyId departmentId now
          uploadFails insertFails false st).1.storage,
        p ∈ st.storage ∨
        ∃ rec ∈ (uploadNote title fileNameOrig facultyId departmentId now
            uploadFails insertFails false st).1.notes,
          rec.file_path = p) := by
  refine ⟨?_, rfl, fun _ => rfl, ?_⟩
  · unfold uploadNote
    simp only [Bool.false_eq_true, if_false, if_true]
    have hkeep : ∀ x ∈ st.storage,
        (x != uploadFileName facultyId fileNameOrig now) = true := by
      intro x hx
      have : x ≠ uploadFileName facultyId fileNameOrig now := by
        intro h
        exact hfresh (h ▸ hx)
      simpa using this
    rw [List.filter_append, List.filter_eq_self.mpr hkeep]
    simp
  · intro uploadFails insertFails p hp
    cases uploadFails with
    | true => exact Or.inl hp
    | false =>
      cases insertFails with
      | true =>
        left
        unfold uploadNote at hp
        simp only [Bool.false_eq_true, if_false, if_true] at hp
        have hp2 := List.of_mem_filter hp
        have hp3 := List.mem_of_mem_filter hp
        rcases List.mem_append.mp hp3 with h | h
        · exact h
        · exfalso
          simp at h
          rw [h] at hp2
          simp at hp2
      | false =>
        unfold uploadNote at hp ⊢
        simp only [Bool.false_eq_true, if_false, if_true] at hp ⊢
        rcases List.mem_append.mp hp with h | h
        · exact Or.inl h
        · right
          refine ⟨⟨title, uploadFileName facultyId fileNameOrig now,
            facultyId, departmentId⟩, ?_, ?_⟩
          · exact List.mem_append_right _ (List.mem_singleton.mpr rfl)
          · simp at h
            rw [h]

/-- Witness for C9 (amended): uploading into an empty backend. -/
theorem uploadNote_spec_witness :
    uploadNote "T" "a.pdf" "f1" "d1" 7 false true false ⟨[], []⟩ =
      ((⟨[], []⟩ : BackendState), true) ∧
    uploadNote "T" "a.pdf" "f1" "d1" 7 false true true ⟨[], []⟩ =
      ({ storage := [] ++ [uploadFileName "f1" "a.pdf" 7], notes := [] }, true) ∧
    (∀ removeFails : Bool,
      uploadNote "T" "a.pdf" "f1" "d1" 7 false false removeFails ⟨[], []⟩ =
        ({ storage := [] ++ [uploadFileName "f1" "a.pdf" 7]
           notes := [] ++
             [{ title := "T", file_path := uploadFileName "f1" "a.pdf" 7
                faculty_id := "f1", department_id := "d1" }] }, false)) ∧
    (∀ uploadFails insertFails : Bool,
      ∀ p ∈ (uploadNote "T" "a.pdf" "f1" "d1" 7
          uploadFails insertFails false ⟨[], []⟩).1.storage,
        p ∈ ([] : List String) ∨
        ∃ rec ∈ (uploadNote "T" "a.pdf" "f1" "d1" 7
            uploadFails insertFails false ⟨[], []⟩).1.notes,
          rec.file_path = p) :=
  uploadNote_spec "T" "a.pdf" "f1" "d1" 7 ⟨[], []⟩ (List.not_mem_nil _)

end NoteNest
